import Mathlib

/-!
Verification of the packaging manifest `python/setup.py` of the
agensgraph-drivers repository.  The manifest is a single call to
setuptools' `setup` with literal keyword arguments, plus a call to
`find_packages(exclude=['tests'])`.  We embed the manifest as a record of
the keyword arguments, parameterised by the list of packages discovered in
the source tree, and model the library functions the manifest calls
(`find_packages` with its fnmatch-style exclusion, and the version
constraint semantics of `install_requires`).
-/

/-- Model of Python `fnmatch.fnmatchcase` restricted to the pattern
characters that can occur here: `*` matches any run of characters, `?`
matches exactly one character, any other character matches itself.
(Character classes `[...]` do not occur in the manifest's exclude list.) -/
def fnmatchCase : List Char → List Char → Bool
  | [], s => s.isEmpty
  | p :: ps, s =>
    if p = '*' then
      fnmatchCase ps s ||
        (match s with
         | [] => false
         | _ :: s2 => fnmatchCase (p :: ps) s2)
    else
      match s with
      | [] => false
      | c :: s2 => (p == '?' || p == c) && fnmatchCase ps s2
termination_by pat s => (pat.length, s.length)

/-- Model of `setuptools.find_packages`: every package discovered in the
source tree is kept unless its dotted name matches one of the exclude
patterns (fnmatch-style matching, as in setuptools' PackageFinder). -/
def find_packages (found : List String) (exclude : List String) : List String :=
  found.filter (fun p => ! exclude.any (fun pat => fnmatchCase pat.data p.data))

/-- The keyword arguments of the single `setup(...)` call in
`python/setup.py`. -/
structure SetupArgs where
  name : String
  version : String
  description : String
  install_requires : List String
  packages : List String
  test_suite : String
  author : String
  author_email : String
  maintainer : String
  maintainer_email : String
  url : String
  license : String
  deriving Repr, DecidableEq

/-- The exclusion list passed to `find_packages` in `python/setup.py`,
line 9: `exclude=['tests']`. -/
def excludeList : List String := ["tests"]

/-- The `setup(...)` call of `python/setup.py`, lines 3-18, as a function
of the list of packages discovered in the source tree (the only
non-literal input of the manifest). -/
def setupCall (found : List String) : SetupArgs :=
  { name := "agensgraph-python"
    version := "1.0.0"
    description := "Psycopg2 type extension module for AgensGraph"
    install_requires := ["psycopg2>=2.5.4"]
    packages := find_packages found excludeList
    test_suite := "tests"
    author := "Umar Hayat"
    author_email := "skaisw@skaiworldwide.com"
    maintainer := "Umar Hayat"
    maintainer_email := "skaisw@skaiworldwide.com"
    url := "https://github.com/skaiworldwide-oss/agensgraph-drivers"
    license := "Apache License Version 2.0" }

/-- Split a character list at every occurrence of the separator
character, as Python `str.split` does. -/
def splitOnChar (c : Char) : List Char → List (List Char)
  | [] => [[]]
  | x :: xs =>
    let r := splitOnChar c xs
    if x = c then [] :: r
    else
      match r with
      | [] => [x] :: []
      | y :: ys => (x :: y) :: ys

/-- Read a decimal digit string as a natural number. -/
def digitsToNat (s : List Char) : Nat :=
  s.foldl (fun acc c => acc * 10 + (c.toNat - 48)) 0

/-- A dotted version string as its list of numeric components. -/
def parseVersion (s : List Char) : List Nat :=
  (splitOnChar '.' s).map digitsToNat

/-- Split a requirement string of the form `name>=version` at the first
occurrence of the operator. -/
def splitReq : List Char → Option (List Char × List Char)
  | '>' :: '=' :: rest => some ([], rest)
  | c :: rest => (splitReq rest).map (fun nv => (c :: nv.1, nv.2))
  | [] => none

/-- Component-wise comparison of release version tuples, shorter tuples
padded with zeros (the minimum-version ordering used by pip for plain
release segments). -/
def versionLe : List Nat → List Nat → Bool
  | [], _ => true
  | x :: xs, [] => x == 0 && versionLe xs []
  | x :: xs, y :: ys => x < y || (x == y && versionLe xs ys)

/-- A requirement string `name>=min` is satisfied by an installed version
`v` of the package named `name` whenever `min ≤ v`. -/
def requirementSatisfied (r : String) (installedName : String) (v : List Nat) : Bool :=
  match splitReq r.data with
  | some nv =>
      (nv.1 == installedName.data) && versionLe (parseVersion nv.2) v
  | none => false

/-- The metadata of a `setup` call apart from the discovered package
list: every keyword argument of the manifest that is a literal constant. -/
def metadataOf (a : SetupArgs) :
    String × String × String × List String × String × String × String ×
      String × String × String × String :=
  (a.name, a.version, a.description, a.install_requires, a.test_suite,
   a.author, a.author_email, a.maintainer, a.maintainer_email, a.url,
   a.license)

/-- A pattern with no `*` and no `?` matches exactly itself under
fnmatch. -/
theorem fnmatchCase_literal (pat : List Char)
    (h : ∀ c ∈ pat, c ≠ '*' ∧ c ≠ '?') :
    ∀ s, fnmatchCase pat s = true ↔ pat = s := by
  induction pat with
  | nil =>
    intro s
    cases s <;> simp [fnmatchCase]
  | cons p ps ih =>
    intro s
    have hp := h p (List.mem_cons_self p ps)
    have ih2 := ih (fun c hc => h c (List.mem_cons_of_mem p hc))
    cases s with
    | nil => simp [fnmatchCase, hp.1]
    | cons c s2 =>
      simp [fnmatchCase, hp.1, hp.2, ih2 s2, List.cons.injEq]

/-- The discovered-package list of the manifest keeps exactly the
packages whose dotted name differs from the string `tests`. -/
theorem packages_eq_filter (found : List String) :
    (setupCall found).packages = found.filter (fun p => p ≠ "tests") := by
  show find_packages found excludeList = _
  unfold find_packages excludeList
  apply List.filter_congr
  intro p _
  simp only [List.any_cons, List.any_nil, Bool.or_false]
  have key := fnmatchCase_literal "tests".data (by decide) p.data
  by_cases hp : p = "tests"
  · subst hp
    simp [key.mpr rfl]
  · have hf : fnmatchCase "tests".data p.data = false := by
      rw [Bool.eq_false_iff]
      intro htrue
      exact hp (String.ext (key.mp htrue)).symm
    simp [hf, hp]

/-- Claim C1: the manifest declares exactly one installation dependency,
on psycopg2 with the minimum-version constraint `>=2.5.4`, and no other
dependency. -/
theorem manifest_single_dependency (found : List String) :
    (setupCall found).install_requires = ["psycopg2>=2.5.4"] ∧
    (setupCall found).install_requires.length = 1 :=
  ⟨rfl, rfl⟩

/-- Claim C2: for every set of packages present in the source tree, the
package-discovery call with exclusion list `['tests']` returns all
discovered packages except any package named `tests`. -/
theorem manifest_packages_exclude_tests (found : List String) :
    (setupCall found).packages = found.filter (fun p => p ≠ "tests") :=
  packages_eq_filter found

/-- Claim C3: every declared metadata field of the manifest (name,
version, description, each dependency-list entry, test-suite pointer,
author, author_email, maintainer, maintainer_email, url, license) is a
non-empty string. -/
theorem manifest_fields_nonempty (found : List String) :
    (setupCall found).name ≠ "" ∧
    (setupCall found).version ≠ "" ∧
    (setupCall found).description ≠ "" ∧
    ((setupCall found).install_requires.all (fun r => r != "")) = true ∧
    (setupCall found).test_suite ≠ "" ∧
    (setupCall found).author ≠ "" ∧
    (setupCall found).author_email ≠ "" ∧
    (setupCall found).maintainer ≠ "" ∧
    (setupCall found).maintainer_email ≠ "" ∧
    (setupCall found).url ≠ "" ∧
    (setupCall found).license ≠ "" := by
  refine ⟨?_, ?_, ?_, ?_, ?_, ?_, ?_, ?_, ?_, ?_, ?_⟩ <;> simp [setupCall]

/-- Claim C4: the manifest's test-suite pointer names the directory
`tests`, and that name is the same as the single package excluded from
package discovery. -/
theorem manifest_test_suite_matches_excluded (found : List String) :
    (setupCall found).test_suite = "tests" ∧
    excludeList = [(setupCall found).test_suite] :=
  ⟨rfl, rfl⟩

/-- Claim C5: the declared dependency constraint `psycopg2>=2.5.4` is
satisfiable: the version 2.5.4 of psycopg2 itself satisfies every entry
of the manifest's dependency list. -/
theorem manifest_dependency_satisfiable :
    ∃ v : List Nat,
      ((setupCall []).install_requires.all
        (fun r => requirementSatisfied r "psycopg2" v)) = true ∧
      v = [2, 5, 4] :=
  ⟨[2, 5, 4], by decide, rfl⟩

/-- Claim C6: the manifest declares the package name
`agensgraph-python` and the version `1.0.0`. -/
theorem manifest_name_version (found : List String) :
    (setupCall found).name = "agensgraph-python" ∧
    (setupCall found).version = "1.0.0" :=
  ⟨rfl, rfl⟩

/-- Claim C7: the manifest declares author and maintainer contact fields
(name and email for each), a project URL and a license identifier, each
equal to a fixed string constant. -/
theorem manifest_contact_fields (found : List String) :
    (setupCall found).author = "Umar Hayat" ∧
    (setupCall found).author_email = "skaisw@skaiworldwide.com" ∧
    (setupCall found).maintainer = "Umar Hayat" ∧
    (setupCall found).maintainer_email = "skaisw@skaiworldwide.com" ∧
    (setupCall found).url = "https://github.com/skaiworldwide-oss/agensgraph-drivers" ∧
    (setupCall found).license = "Apache License Version 2.0" :=
  ⟨rfl, rfl, rfl, rfl, rfl, rfl⟩

/-- Claim C8: evaluating the manifest is deterministic and
input-independent: every metadata field apart from the package list is
the same for any two source trees, and the package list is exactly the
package-discovery result on the given tree. -/
theorem manifest_deterministic (f g : List String) :
    metadataOf (setupCall f) = metadataOf (setupCall g) ∧
    (setupCall f).packages = find_packages f excludeList :=
  ⟨rfl, rfl⟩

/-- Claim C9: the author field equals the maintainer field and the
author_email field equals the maintainer_email field, both naming Umar
Hayat with the address skaisw@skaiworldwide.com. -/
theorem manifest_author_eq_maintainer (found : List String) :
    (setupCall found).author = (setupCall found).maintainer ∧
    (setupCall found).author_email = (setupCall found).maintainer_email ∧
    (setupCall found).author = "Umar Hayat" ∧
    (setupCall found).author_email = "skaisw@skaiworldwide.com" :=
  ⟨rfl, rfl, rfl, rfl⟩

/-- Claim C10: the exclusion list is exactly the single entry `tests`
with no wildcard pattern, so any discovered package other than `tests`
itself (in particular a nested sub-package such as `tests.unit`) is kept
in the discovered package list. -/
theorem manifest_exclude_no_wildcard (found : List String) (p : String)
    (hmem : p ∈ found) (hne : p ≠ "tests") :
    excludeList = ["tests"] ∧ p ∈ (setupCall found).packages := by
  refine ⟨rfl, ?_⟩
  rw [packages_eq_filter]
  exact List.mem_filter.mpr ⟨hmem, by simp [hne]⟩

/-- The nested sub-package `tests.unit` survives the exclusion even when
the `tests` package itself is present in the tree. -/
theorem manifest_exclude_no_wildcard_witness :
    excludeList = ["tests"] ∧
    "tests.unit" ∈ (setupCall ["tests", "tests.unit"]).packages :=
  manifest_exclude_no_wildcard ["tests", "tests.unit"] "tests.unit"
    (by decide) (by decide)
